import Mathlib

/-!
Verification of the core extraction and selection layer of
`lt_promo_analyzer_enhanced.py` (Lithuanian promo-flyer analyzer).

The Python source is shallowly embedded: raw text is `List Char`, currency
amounts are `ℚ` (Python floats idealized as exact rationals), Python `int`
is `ℤ`, fallible code (exceptions) is `Option`/`Except`.  Regular-expression
scanning (`re.finditer`) is embedded as an explicit left-to-right scanner
with one dedicated matcher per pattern of the source's pattern lists; each
matcher reproduces the backtracking behaviour of its regex on the given
pattern shape (for all eight patterns the greedy/lazy semantics collapse to
maximal-run scanning, as the quantified classes are disjoint from the
characters that follow them).
-/

/- `Rat.add`, `Rat.mul`, `Rat.inv` and `Rat.sub` are `@[irreducible]` in
Batteries, which blocks `decide`/`rfl` evaluation of concrete rational
computations; restore the default reducibility for this development. -/
attribute [local semireducible] Rat.add Rat.mul Rat.inv Rat.sub

/-! ### Basic Python string primitives -/

/-- Python `\s` / `str.strip` / `str.split` whitespace class
(ASCII part: space, tab, newline, carriage return, vertical tab, form feed). -/
def pyIsSpace (c : Char) : Bool :=
  c = ' ' || c = '\t' || c = '\n' || c = '\r' || c = '\x0b' || c = '\x0c'

/-- Python `str.strip()`: remove leading and trailing whitespace. -/
def pyStrip (s : List Char) : List Char :=
  ((s.dropWhile pyIsSpace).reverse.dropWhile pyIsSpace).reverse

/-- Helper of `pySplit`: `cur` is the current in-progress word, reversed. -/
def pySplitAux : List Char → List Char → List (List Char)
  | [], cur => if cur.isEmpty then [] else [cur.reverse]
  | c :: rest, cur =>
    if pyIsSpace c then
      (if cur.isEmpty then pySplitAux rest [] else cur.reverse :: pySplitAux rest [])
    else pySplitAux rest (c :: cur)

/-- Python `str.split()` (no argument): split on runs of whitespace,
discarding empty fragments. -/
def pySplit (s : List Char) : List (List Char) := pySplitAux s []

/-- `needle` is a prefix of `hay` (helper for the Python `in` operator). -/
def beginsWith : List Char → List Char → Bool
  | [], _ => true
  | _ :: _, [] => false
  | a :: as, b :: bs => a = b && beginsWith as bs

/-- Python `needle in hay` on strings: substring containment. -/
def containsSub (hay needle : List Char) : Bool :=
  beginsWith needle hay ||
    match hay with
    | [] => false
    | _ :: rest => containsSub rest needle

/-- Numeric value of a digit string (Python `int`/`float` on an all-digit
capture group). -/
def natOfDigits (ds : List Char) : ℕ :=
  ds.foldl (fun n c => 10 * n + (c.toNat - 48)) 0

/-- Case-insensitive literal match at the start of `s`
(`lit` is given lower-case; models `re.IGNORECASE` literals). -/
def litAt : List Char → List Char → Bool
  | [], _ => true
  | _ :: _, [] => false
  | l :: ls, c :: cs => c.toLower = l && litAt ls cs

/-- Helper of `dedupFirst`: `seen` holds the values already emitted. -/
def dedupFirstAux {α : Type} [DecidableEq α] (seen : List α) : List α → List α
  | [] => []
  | a :: as =>
    if a ∈ seen then dedupFirstAux seen as
    else a :: dedupFirstAux (a :: seen) as

/-- First-occurrence deduplication (models `pandas` keep-first semantics and
iteration over a Python `set` built from a list, respectively). -/
def dedupFirst {α : Type} [DecidableEq α] (l : List α) : List α :=
  dedupFirstAux [] l

/-- `mapM` over `Option`, written out explicitly: Python's per-element record
construction where any element raising an exception aborts the whole pass. -/
def optionMapList {α β : Type} (f : α → Option β) : List α → Option (List β)
  | [] => some []
  | a :: as =>
    match f a with
    | none => none
    | some b => (optionMapList f as).map (fun bs => b :: bs)

/-! ### Rounding

Python `round(x, 2)` rounds half to even.  Floats are idealized as exact
rationals, so the embedding is round-half-even on `ℚ` at two decimals. -/

/-- Round half to even to the nearest integer (Python `round(x)`). -/
def roundHalfEven (q : ℚ) : ℤ :=
  if q - ⌊q⌋ < 1 / 2 then ⌊q⌋
  else if (1 : ℚ) / 2 < q - ⌊q⌋ then ⌊q⌋ + 1
  else if 2 ∣ ⌊q⌋ then ⌊q⌋ else ⌊q⌋ + 1

/-- Python `round(x, 2)`. -/
def round2 (q : ℚ) : ℚ := (roundHalfEven (q * 100) : ℚ) / 100

/-! ### Regex matchers

One matcher per pattern of `self.price_patterns` / `self.discount_patterns`
(source lines 83-96).  A matcher takes the suffix of the text starting at the
tried position and returns `some (consumedLength, capturedGroups)` when the
regex matches there. -/

/-- `(\d+)[,.](\d{2})\s*€` — price pattern 1 (`2,99 €` / `2.99 €`).
Returns (length, euro group, cent group). -/
def pricePat1 (s : List Char) : Option (ℕ × ℕ × ℕ) :=
  let d1 := s.takeWhile Char.isDigit
  if d1.isEmpty then none else
  match s.drop d1.length with
  | sep :: a :: b :: rest =>
    if (sep = ',' ∨ sep = '.') ∧ a.isDigit ∧ b.isDigit then
      let w := rest.takeWhile pyIsSpace
      match rest.drop w.length with
      | c :: _ =>
        if c = '€' then
          some (d1.length + 3 + w.length + 1, natOfDigits d1, natOfDigits [a, b])
        else none
      | [] => none
    else none
  | _ => none

/-- `(\d+)[,.](\d{2})\s*EUR` — price pattern 2 (`2,99 EUR`, case-insensitive). -/
def pricePat2 (s : List Char) : Option (ℕ × ℕ × ℕ) :=
  let d1 := s.takeWhile Char.isDigit
  if d1.isEmpty then none else
  match s.drop d1.length with
  | sep :: a :: b :: rest =>
    if (sep = ',' ∨ sep = '.') ∧ a.isDigit ∧ b.isDigit then
      let w := rest.takeWhile pyIsSpace
      if litAt [ 'e', 'u', 'r'] (rest.drop w.length) then
        some (d1.length + 3 + w.length + 3, natOfDigits d1, natOfDigits [a, b])
      else none
    else none
  | _ => none

/-- `€\s*(\d+)[,.](\d{2})` — price pattern 3 (`€ 2,99`). -/
def pricePat3 (s : List Char) : Option (ℕ × ℕ × ℕ) :=
  match s with
  | c :: rest =>
    if c = '€' then
      let w := rest.takeWhile pyIsSpace
      let s2 := rest.drop w.length
      let d1 := s2.takeWhile Char.isDigit
      if d1.isEmpty then none else
      match s2.drop d1.length with
      | sep :: a :: b :: _ =>
        if (sep = ',' ∨ sep = '.') ∧ a.isDigit ∧ b.isDigit then
          some (1 + w.length + d1.length + 3, natOfDigits d1, natOfDigits [a, b])
        else none
      | _ => none
    else none
  | [] => none

/-- `(\d+)\s*ct` — price pattern 4 (cents, case-insensitive). -/
def pricePat4 (s : List Char) : Option (ℕ × ℕ) :=
  let d1 := s.takeWhile Char.isDigit
  if d1.isEmpty then none else
  let rest := s.drop d1.length
  let w := rest.takeWhile pyIsSpace
  if litAt [ 'c', 't'] (rest.drop w.length) then
    some (d1.length + w.length + 2, natOfDigits d1)
  else none

/-- `(\d+)%` at the start of `s` (shared tail of the discount patterns). -/
def digitsPct (s : List Char) : Option (ℕ × ℕ) :=
  let d := s.takeWhile Char.isDigit
  if d.isEmpty then none else
  match s.drop d.length with
  | '%' :: _ => some (d.length + 1, natOfDigits d)
  | _ => none

/-- `-(\d+)%` — discount pattern 1 (`-30%`). -/
def discPat1 (s : List Char) : Option (ℕ × ℕ) :=
  match s with
  | '-' :: rest => (digitsPct rest).map (fun p => (1 + p.1, p.2))
  | _ => none

/-- `(\d+)%\s*nuolaida` — discount pattern 2 (`30% nuolaida`, case-insensitive). -/
def discPat2 (s : List Char) : Option (ℕ × ℕ) :=
  let d := s.takeWhile Char.isDigit
  if d.isEmpty then none else
  match s.drop d.length with
  | '%' :: rest =>
    let w := rest.takeWhile pyIsSpace
    if litAt [ 'n', 'u', 'o', 'l', 'a', 'i', 'd', 'a'] (rest.drop w.length) then
      some (d.length + 1 + w.length + 8, natOfDigits d)
    else none
  | _ => none

/-- Lazy `.*?(\d+)%`: consume the fewest (non-newline) characters after which
`(\d+)%` matches. -/
def lazyDigitsPct : List Char → Option (ℕ × ℕ)
  | [] => none
  | c :: rest =>
    match digitsPct (c :: rest) with
    | some p => some p
    | none =>
      if c = '\n' then none
      else (lazyDigitsPct rest).map (fun p => (p.1 + 1, p.2))

/-- `taupyk.*?(\d+)%` — discount pattern 3 (`taupyk iki 30%`, case-insensitive). -/
def discPat3 (s : List Char) : Option (ℕ × ℕ) :=
  if litAt [ 't', 'a', 'u', 'p', 'y', 'k'] s then
    (lazyDigitsPct (s.drop 6)).map (fun p => (6 + p.1, p.2))
  else none

/-- `iki\s*-(\d+)%` — discount pattern 4 (`iki -30%`, case-insensitive). -/
def discPat4 (s : List Char) : Option (ℕ × ℕ) :=
  if litAt [ 'i', 'k', 'i'] s then
    let rest := s.drop 3
    let w := rest.takeWhile pyIsSpace
    match rest.drop w.length with
    | '-' :: rest2 => (digitsPct rest2).map (fun p => (3 + w.length + 1 + p.1, p.2))
    | _ => none
  else none

/-! ### `re.finditer`

Left-to-right scan yielding non-overlapping matches; after a match the scan
resumes at the match end (all embedded patterns consume at least one
character).  `fuel` bounds the recursion; `text.length + 1` steps always
suffice since the position strictly increases. -/

def finditerAux {α : Type} (m : List Char → Option (ℕ × α)) (text : List Char) :
    ℕ → ℕ → List (ℕ × ℕ × α)
  | 0, _ => []
  | fuel + 1, pos =>
    if pos < text.length then
      match m (text.drop pos) with
      | some (len, v) => (pos, pos + len, v) :: finditerAux m text fuel (max (pos + len) (pos + 1))
      | none => finditerAux m text fuel (pos + 1)
    else []

/-- All matches of matcher `m` in `text`, as (start, stop, value) triples. -/
def finditer {α : Type} (m : List Char → Option (ℕ × α)) (text : List Char) :
    List (ℕ × ℕ × α) :=
  finditerAux m text (text.length + 1) 0

/-! ### Extraction (source lines 268-330) -/

/-- Value of a euro-and-cent match: `float(f"{euros}.{cents}")` with a
two-digit cent group. -/
def euroVal (e c : ℕ) : ℚ := (e : ℚ) + (c : ℚ) / 100

/-- All price matches of the four price patterns, in pattern-list order then
left-to-right order, with the price already converted to euros
(pattern 4 carries `ct`, so its group is divided by 100). -/
def priceMatches (text : List Char) : List (ℕ × ℕ × ℚ) :=
  (finditer pricePat1 text).map (fun x => (x.1, x.2.1, euroVal x.2.2.1 x.2.2.2)) ++
  (finditer pricePat2 text).map (fun x => (x.1, x.2.1, euroVal x.2.2.1 x.2.2.2)) ++
  (finditer pricePat3 text).map (fun x => (x.1, x.2.1, euroVal x.2.2.1 x.2.2.2)) ++
  (finditer pricePat4 text).map (fun x => (x.1, x.2.1, (x.2.2 : ℚ) / 100))

/-- All discount matches of the four discount patterns (value is a Python
`int`, hence `ℤ`). -/
def discountMatches (text : List Char) : List (ℕ × ℕ × ℤ) :=
  (finditer discPat1 text).map (fun x => (x.1, x.2.1, (x.2.2 : ℤ))) ++
  (finditer discPat2 text).map (fun x => (x.1, x.2.1, (x.2.2 : ℤ))) ++
  (finditer discPat3 text).map (fun x => (x.1, x.2.1, (x.2.2 : ℤ))) ++
  (finditer discPat4 text).map (fun x => (x.1, x.2.1, (x.2.2 : ℤ)))

/-- `text[max(0, start - 50) : min(len(text), end + 50)]` — the ±50-character
context window around a match, clipped to the text bounds
(`ℕ` subtraction performs the clipping at 0). -/
def windowSlice (text : List Char) (s e : ℕ) : List Char :=
  (text.drop (s - 50)).take (min text.length (e + 50) - (s - 50))

/-- `extract_prices_from_text` (source lines 268-301): each match yields
`(context, price)` where the context is the **stripped** clipped window. -/
def extract_prices_from_text (text : List Char) : List (List Char × ℚ) :=
  (priceMatches text).map (fun x => (pyStrip (windowSlice text x.1 x.2.1), x.2.2))

/-- `extract_discounts_from_text` (source lines 303-330). -/
def extract_discounts_from_text (text : List Char) : List (List Char × ℤ) :=
  (discountMatches text).map (fun x => (pyStrip (windowSlice text x.1 x.2.1), x.2.2))

/-! ### ProductRecord and record construction (source lines 332-427) -/

/-- The central entity produced by `parse_flyer`.  `parsed_date`
(`datetime.now()`, wall-clock time) is outside the embedding; no claim
touches it. -/
structure ProductRecord where
  retailer : String
  product_name : List Char
  category : String
  base_price : ℚ
  final_price : ℚ
  discount_pct : ℤ
  is_promo : Bool
  source_file : String
deriving Repr, DecidableEq

/-- `self.category_keywords` (source lines 99-110), in insertion order. -/
def category_keywords : List (String × List String) :=
  [("Pieno produktai", ["pienas", "jogurt", "grietinė", "varškė", "sūris", "sviestas"]),
   ("Mėsa ir mėsos gaminiai", ["mėsa", "dešra", "kumpi", "filė", "šonin", "dešrel"]),
   ("Duona ir konditerija", ["duona", "batonas", "bandel", "pyraga", "kepalin"]),
   ("Vaisiai ir daržovės", ["obuol", "banan", "pomidor", "agurkr", "moliūg", "kopūst"]),
   ("Gėrimai", ["sultys", "vanduo", "gėrim", "limonadas", "arbata", "kava"]),
   ("Konservai", ["konserv", "marinet", "grybai", "žuvies"]),
   ("Užšaldyti produktai", ["užšaldyt", "ledai", "pizza"]),
   ("Sausainiai ir saldumynai", ["sausain", "šokolad", "saldain", "vafliai"]),
   ("Makaronai ir kruopos", ["makaron", "kruopos", "ryžiai", "grikiai"]),
   ("Kosmetika ir higiena", ["šampūnas", "muilas", "pasta", "dušo želė"])]

/-- Inner loop of `categorize_product`: first category (in insertion order)
with a keyword occurring in the lower-cased text. -/
def categorizeGo (tl : List Char) : List (String × List String) → Option String
  | [] => none
  | (cat, kws) :: rest =>
    if kws.any (fun kw => containsSub tl kw.toList) then some cat
    else categorizeGo tl rest

/-- `categorize_product` (source lines 332-349): `None` when nothing matches. -/
def categorize_product (text : List Char) : Option String :=
  categorizeGo (text.map Char.toLower) category_keywords

/-- One discount pair qualifies for a price context when one of the first five
whitespace tokens of its lower-cased context occurs in the lower-cased price
context (source line 389). -/
def discQualifies (ctx : List Char) (p : List Char × ℤ) : Bool :=
  ((pySplit (p.1.map Char.toLower)).take 5).any
    (fun w => containsSub (ctx.map Char.toLower) w)

/-- Discount association loop of `parse_flyer` (source lines 386-391): first
qualifying discount pair wins, otherwise 0. -/
def associateDiscount (ctx : List Char) : List (List Char × ℤ) → ℤ
  | [] => 0
  | p :: rest => if discQualifies ctx p then p.2 else associateDiscount ctx rest

/-- Price derivation of `parse_flyer` (source lines 400-406).  Python raises
`ZeroDivisionError` when `discount_pct = 100` (the source has no guard), so
the result is an `Option`: `some (base_price, final_price)` otherwise. -/
def calcPrices (price : ℚ) (dp : ℤ) : Option (ℚ × ℚ) :=
  if 0 < dp then
    if dp = 100 then none
    else some (round2 (price / (1 - (dp : ℚ) / 100)), price)
  else some (price, price)

/-- Loop body of `parse_flyer` for one extracted price pair, after the
associated discount `dp` has been computed (source lines 393-418). -/
def recordFor (retailer source_file : String) (ctx : List Char) (price : ℚ)
    (dp : ℤ) : Option ProductRecord :=
  match calcPrices price dp with
  | none => none
  | some bf =>
    let words := pySplit ctx
    some
      { retailer := retailer
        product_name :=
          if words.isEmpty then "Unknown Product".toList
          else List.intercalate [' '] (words.take 5)
        category := (categorize_product ctx).getD "Kita"
        base_price := bf.1
        final_price := bf.2
        discount_pct := dp
        is_promo := decide (0 < dp)
        source_file := source_file }

/-- Helper of `dedupRecords`: `seen` holds the (name, final price) keys of
the records already emitted. -/
def dedupRecordsAux (seen : List (List Char × ℚ)) :
    List ProductRecord → List ProductRecord
  | [] => []
  | r :: rs =>
    if (r.product_name, r.final_price) ∈ seen then dedupRecordsAux seen rs
    else r :: dedupRecordsAux ((r.product_name, r.final_price) :: seen) rs

/-- `df.drop_duplicates(subset=['product_name', 'final_price'])`
(source line 424): keep the first record of each (name, final price) pair. -/
def dedupRecords (l : List ProductRecord) : List ProductRecord :=
  dedupRecordsAux [] l

/-- `parse_flyer` (source lines 351-427), starting from the decoded flyer
text (PDF decoding is an external collaborator).  `none` models the
`ZeroDivisionError` escaping when some record has an associated discount of
exactly 100. -/
def parse_flyer (text : List Char) (retailer source_file : String) :
    Option (List ProductRecord) :=
  if pyStrip text = [] then some []
  else
    (optionMapList
        (fun p => recordFor retailer source_file p.1 p.2
          (associateDiscount p.1 (extract_discounts_from_text text)))
        (extract_prices_from_text text)).map
      dedupRecords

/-! ### Deal ranking (source lines 585-614) -/

/-- `savings = base_price - final_price` (source line 605). -/
def savingsOf (r : ProductRecord) : ℚ := r.base_price - r.final_price

/-- `deal_score = discount_pct * 0.7 + (savings / base_price * 100) * 0.3`
(source line 608). -/
def dealScore (r : ProductRecord) : ℚ :=
  (r.discount_pct : ℚ) * (7 / 10) + (savingsOf r / r.base_price * 100) * (3 / 10)

/-- `df.nlargest(n, col)` / `df.nsmallest(n, col)` with the default
`keep='first'`: stable sort by the key, then take `n`.  Insertion sort is
used as the embedding because it is stable and structurally computable. -/
def takeSortedBy {α : Type} (le : α → α → Prop) [DecidableRel le] (n : ℕ)
    (l : List α) : List α :=
  (l.insertionSort le).take n

/-- `find_best_deals` (source lines 585-614): raises when no data is loaded,
otherwise the `top_n` promo records (optionally category-filtered) with the
largest deal score, descending. -/
def find_best_deals (records : List ProductRecord) (category : Option String)
    (top_n : ℕ) : Except String (List ProductRecord) :=
  if records.isEmpty then Except.error "No promo data loaded."
  else
    Except.ok (takeSortedBy (fun a b => dealScore b ≤ dealScore a) top_n
      (match category with
       | some c => (records.filter (fun r => r.is_promo)).filter (fun r => r.category = c)
       | none => records.filter (fun r => r.is_promo)))

/-! ### Cart optimization (source lines 637-696) -/

/-- `sort_key = final_price - is_promo * 0.01` (source lines 666-668). -/
def cartSortKey (r : ProductRecord) : ℚ :=
  r.final_price - (if r.is_promo then 1 / 100 else 0)

/-- The Python guard `if budget and (total_cost + item_cost) > budget`
(source line 674): `budget` is falsy when it is `None` **or** `0`. -/
def cartSkips (budget : Option ℚ) (total cost : ℚ) : Bool :=
  match budget with
  | none => false
  | some b => decide (b ≠ 0) && decide (b < total + cost)

/-- Per-category acceptance loop of `optimize_shopping_cart` (source lines
671-688).  The trace records each accepted item together with the running
total **before** it was added (a proof-side observation; the cart of the
source is the list of first components).  Returns (trace, total, savings). -/
def cartAccept (budget : Option ℚ) :
    List ProductRecord → ℚ → ℚ → List (ProductRecord × ℚ) × ℚ × ℚ
  | [], total, savings => ([], total, savings)
  | p :: rest, total, savings =>
    if cartSkips budget total p.final_price then cartAccept budget rest total savings
    else
      let out := cartAccept budget rest (total + p.final_price)
        (savings + (p.base_price - p.final_price))
      ((p, total) :: out.1, out.2)

/-- Category loop of `optimize_shopping_cart` (source lines 656-688). -/
def cartRun (records : List ProductRecord) (budget : Option ℚ) :
    List (String × ℕ) → ℚ → ℚ → List (ProductRecord × ℚ) × ℚ × ℚ
  | [], total, savings => ([], total, savings)
  | (cat, qty) :: rest, total, savings =>
    let catProds := records.filter (fun r => r.category = cat)
    if catProds.isEmpty then cartRun records budget rest total savings
    else
      let best := takeSortedBy (fun a b => cartSortKey a ≤ cartSortKey b) qty catProds
      let step := cartAccept budget best total savings
      let out := cartRun records budget rest step.2.1 step.2.2
      (step.1 ++ out.1, out.2)

/-- Result structure of `optimize_shopping_cart` (source lines 690-696). -/
structure CartSummary where
  cart : List (ProductRecord × ℚ)
  total_cost : ℚ
  total_savings : ℚ
  items_count : ℕ
  retailers : List String
deriving Repr, DecidableEq

/-- `optimize_shopping_cart` (source lines 637-696).  `desired` is the
`{category: quantity}` mapping in insertion order; `budget` is `None` when
absent.  Raises when no data is loaded. -/
def optimize_shopping_cart (records : List ProductRecord)
    (desired : List (String × ℕ)) (budget : Option ℚ) :
    Except String CartSummary :=
  if records.isEmpty then Except.error "No promo data loaded."
  else
    Except.ok
      { cart := (cartRun records budget desired 0 0).1
        total_cost := round2 (cartRun records budget desired 0 0).2.1
        total_savings := round2 (cartRun records budget desired 0 0).2.2
        items_count := (cartRun records budget desired 0 0).1.length
        retailers := dedupFirst
          ((cartRun records budget desired 0 0).1.map (fun p => p.1.retailer)) }

/-! ### Shopping list generation (source lines 698-739) -/

/-- Budget loop of `generate_shopping_list` (source lines 727-738), with
proof-side observations.  Given the remaining candidates and the running
total it returns:
* the accepted items, each paired with the running total before its addition;
* the running totals observed at the bottom of each executed iteration
  (where the `break` test happens);
* the final running total;
* the candidates left unvisited when the loop stopped early. -/
def shoppingLoop (budget : ℚ) :
    List ProductRecord → ℚ →
      List (ProductRecord × ℚ) × List ℚ × ℚ × List ProductRecord
  | [], total => ([], [], total, [])
  | x :: xs, total =>
    if total + x.final_price ≤ budget then
      if budget * (95 / 100) ≤ total + x.final_price then
        ([(x, total)], [total + x.final_price], total + x.final_price, xs)
      else
        let out := shoppingLoop budget xs (total + x.final_price)
        ((x, total) :: out.1, (total + x.final_price) :: out.2.1, out.2.2)
    else
      if budget * (95 / 100) ≤ total then ([], [total], total, xs)
      else
        let out := shoppingLoop budget xs total
        (out.1, total :: out.2.1, out.2.2)

/-- The shopping list as the source returns it: the accepted records. -/
def shoppingListOf (budget : ℚ) (items : List ProductRecord) : List ProductRecord :=
  (shoppingLoop budget items 0).1.map (fun p => p.1)

/-- Retailer with the most promo records:
`promo_items['retailer'].value_counts().idxmax()` (source line 724).
`none` on an empty series (pandas raises `ValueError`); ties resolve to the
earliest first occurrence. -/
def mostCommonRetailer (promo : List ProductRecord) : Option String :=
  match dedupFirst (promo.map (fun r => r.retailer)) with
  | [] => none
  | n :: rest =>
    some (rest.foldl
      (fun best cand =>
        if promo.countP (fun r => r.retailer = best) <
            promo.countP (fun r => r.retailer = cand) then cand else best)
      n)

/-- The `variety` strategy (source lines 717-721):
`groupby('category')` sorts the group keys (lexicographically for strings),
and each group contributes its 2 cheapest records (`nsmallest(2, 'final_price')`). -/
def varietyArrange (promo : List ProductRecord) : List ProductRecord :=
  ((dedupFirst (promo.map (fun r => r.category))).insertionSort
      (fun a b => a ≤ b)).flatMap
    (fun c =>
      takeSortedBy (fun a b : ProductRecord => a.final_price ≤ b.final_price) 2
        (promo.filter (fun r => r.category = c)))

/-- Strategy dispatch of `generate_shopping_list` (source lines 714-725).
For `savings`, `sort_values('discount_pct', ascending=False)` uses pandas'
default unstable quicksort, so the order among equal discounts is not
specified by the source; the embedding fixes the stable descending order (no
claim depends on tie order).  `none` models the `ValueError` raised by
`idxmax` on an empty series. -/
def strategyArrange (promo : List ProductRecord) (optimize_for : String) :
    Option (List ProductRecord) :=
  if optimize_for = "savings" then
    some (promo.insertionSort (fun a b => b.discount_pct ≤ a.discount_pct))
  else if optimize_for = "variety" then
    some (varietyArrange promo)
  else if optimize_for = "single_retailer" then
    (mostCommonRetailer promo).map (fun n => promo.filter (fun r => r.retailer = n))
  else some promo

/-- `generate_shopping_list` (source lines 698-739). -/
def generate_shopping_list (records : List ProductRecord) (budget : ℚ)
    (optimize_for : String) : Except String (List ProductRecord) :=
  if records.isEmpty then Except.error "No promo data loaded."
  else
    match strategyArrange (records.filter (fun r => r.is_promo)) optimize_for with
    | none => Except.error "attempt to get argmax of an empty sequence"
    | some items => Except.ok (shoppingListOf budget items)

/-! ### Concrete texts and records used by witnesses and counterexamples -/

/-- The record `recordFor "Maxima" "flyer.pdf" "Pienas" 1.99 20` produces. -/
def recC1 : ProductRecord :=
  { retailer := "Maxima"
    product_name := "Pienas".toList
    category := "Pieno produktai"
    base_price := 249 / 100
    final_price := 199 / 100
    discount_pct := 20
    is_promo := true
    source_file := "flyer.pdf" }

/-- Promo record, final price 5 (spec scenario 5 shape). -/
def wRecA : ProductRecord :=
  { retailer := "Maxima", product_name := [ 'x'], category := "A"
    base_price := 10, final_price := 5, discount_pct := 50
    is_promo := true, source_file := "f.pdf" }

/-- Second promo record, final price 5. -/
def wRecB : ProductRecord :=
  { retailer := "Maxima", product_name := [ 'y'], category := "A"
    base_price := 10, final_price := 5, discount_pct := 50
    is_promo := true, source_file := "f.pdf" }

/-- Third promo record, final price 1. -/
def wRecC : ProductRecord :=
  { retailer := "Maxima", product_name := [ 'z'], category := "A"
    base_price := 2, final_price := 1, discount_pct := 50
    is_promo := true, source_file := "f.pdf" }

/-- Non-promo drink at 1.50 (spec scenario 4). -/
def cartG1 : ProductRecord :=
  { retailer := "Maxima", product_name := [ 'a'], category := "Gėrimai"
    base_price := 3 / 2, final_price := 3 / 2, discount_pct := 0
    is_promo := false, source_file := "f.pdf" }

/-- Non-promo drink at 2.00 (spec scenario 4). -/
def cartG2 : ProductRecord :=
  { retailer := "Rimi", product_name := [ 'b'], category := "Gėrimai"
    base_price := 2, final_price := 2, discount_pct := 0
    is_promo := false, source_file := "f.pdf" }

/-- Non-promo drink at 5.00 (spec scenario 4). -/
def cartG3 : ProductRecord :=
  { retailer := "IKI", product_name := [ 'c'], category := "Gėrimai"
    base_price := 5, final_price := 5, discount_pct := 0
    is_promo := false, source_file := "f.pdf" }

/-- A record collection whose only record is not a promotion. -/
def recNP : ProductRecord :=
  { retailer := "Maxima", product_name := [ 'n'], category := "Kita"
    base_price := 2, final_price := 2, discount_pct := 0
    is_promo := false, source_file := "f.pdf" }

/-- The flyer text of the C2 counterexample. -/
def c2text : List Char := "Pienas 1,99 € -150%".toList

/-- The single record the pipeline produces from `c2text`. -/
def recC2 : ProductRecord :=
  { retailer := "Maxima", product_name := c2text, category := "Pieno produktai"
    base_price := -199 / 50, final_price := 199 / 100, discount_pct := 150
    is_promo := true, source_file := "flyer.pdf" }

/-- The flyer text of the C2 witness (an ordinary in-range discount). -/
def c2wtext : List Char := "Pienas 1,99 € -20%".toList

/-- The single record the pipeline produces from `c2wtext`. -/
def recC2w : ProductRecord :=
  { retailer := "Maxima", product_name := c2wtext, category := "Pieno produktai"
    base_price := 249 / 100, final_price := 199 / 100, discount_pct := 20
    is_promo := true, source_file := "flyer.pdf" }

/-- The text of the C8 counterexample: one leading space. -/
def c8text : List Char := " -20%".toList

/-! ### Library lemmas: substring containment -/

theorem beginsWith_iff : ∀ (n h : List Char), beginsWith n h = true ↔ ∃ t, n ++ t = h
  | [], h => by simp [beginsWith]
  | _ :: _, [] => by simp [beginsWith]
  | a :: as, b :: bs => by
    simp only [beginsWith, Bool.and_eq_true, decide_eq_true_eq, List.cons_append,
      List.cons.injEq]
    constructor
    · rintro ⟨rfl, h2⟩
      obtain ⟨t, rfl⟩ := (beginsWith_iff as bs).1 h2
      exact ⟨t, rfl, rfl⟩
    · rintro ⟨t, rfl, h2⟩
      exact ⟨rfl, (beginsWith_iff as bs).2 ⟨t, h2⟩⟩

/-- The executable Python `in` test agrees with the mathematical substring
relation. -/
theorem containsSub_iff : ∀ (h n : List Char),
    containsSub h n = true ↔ ∃ pre post, pre ++ n ++ post = h
  | [], n => by
    show (beginsWith n [] || false) = true ↔ _
    simp [beginsWith_iff, List.append_eq_nil]
  | c :: rest, n => by
    show (beginsWith n (c :: rest) || containsSub rest n) = true ↔ _
    rw [Bool.or_eq_true, beginsWith_iff, containsSub_iff rest n]
    constructor
    · rintro (⟨t, ht⟩ | ⟨pre, post, hp⟩)
      · exact ⟨[], t, by simpa using ht⟩
      · exact ⟨c :: pre, post, by simp [← hp]⟩
    · rintro ⟨pre, post, hp⟩
      cases pre with
      | nil => exact Or.inl ⟨post, by simpa using hp⟩
      | cons x xs =>
        injection hp with h1 h2
        exact Or.inr ⟨xs, post, h2⟩

/-! ### Library lemmas: rounding -/

theorem roundHalfEven_ge_floor (q : ℚ) : ⌊q⌋ ≤ roundHalfEven q := by
  unfold roundHalfEven
  split_ifs <;> omega

theorem roundHalfEven_le_floor_add_one (q : ℚ) : roundHalfEven q ≤ ⌊q⌋ + 1 := by
  unfold roundHalfEven
  split_ifs <;> omega

theorem roundHalfEven_mono {x y : ℚ} (h : x ≤ y) :
    roundHalfEven x ≤ roundHalfEven y := by
  rcases lt_or_eq_of_le (Int.floor_le_floor h) with hlt | heq
  · calc roundHalfEven x ≤ ⌊x⌋ + 1 := roundHalfEven_le_floor_add_one x
      _ ≤ ⌊y⌋ := by omega
      _ ≤ roundHalfEven y := roundHalfEven_ge_floor y
  · unfold roundHalfEven
    rw [← heq]
    split_ifs <;> first | omega | linarith

theorem roundHalfEven_intCast (n : ℤ) : roundHalfEven (n : ℚ) = n := by
  unfold roundHalfEven
  rw [Int.floor_intCast, sub_self]
  norm_num

theorem round2_mono {x y : ℚ} (h : x ≤ y) : round2 x ≤ round2 y := by
  unfold round2
  have h1 : roundHalfEven (x * 100) ≤ roundHalfEven (y * 100) :=
    roundHalfEven_mono (by linarith)
  have h2 : (roundHalfEven (x * 100) : ℚ) ≤ (roundHalfEven (y * 100) : ℚ) := by
    exact_mod_cast h1
  linarith

/-- Two-decimal values are fixed points of `round(·, 2)`. -/
theorem round2_natDiv100 (n : ℕ) : round2 ((n : ℚ) / 100) = (n : ℚ) / 100 := by
  unfold round2
  have h1 : (n : ℚ) / 100 * 100 = ((n : ℤ) : ℚ) := by
    push_cast
    field_simp
  rw [h1, roundHalfEven_intCast]
  push_cast
  ring

/-! ### Library lemmas: extracted values -/

theorem euroVal_form (e c : ℕ) : euroVal e c = ((100 * e + c : ℕ) : ℚ) / 100 := by
  unfold euroVal
  push_cast
  ring

/-- Every extracted price is a two-decimal nonnegative value `n / 100`. -/
theorem extract_prices_form (text : List Char) :
    ∀ p ∈ extract_prices_from_text text, ∃ n : ℕ, p.2 = (n : ℚ) / 100 := by
  intro p hp
  unfold extract_prices_from_text at hp
  obtain ⟨x, hx, rfl⟩ := List.mem_map.1 hp
  unfold priceMatches at hx
  simp only [List.mem_append, List.mem_map] at hx
  rcases hx with ((⟨y, _, rfl⟩ | ⟨y, _, rfl⟩) | ⟨y, _, rfl⟩) | ⟨y, _, rfl⟩
  · exact ⟨100 * y.2.2.1 + y.2.2.2, euroVal_form _ _⟩
  · exact ⟨100 * y.2.2.1 + y.2.2.2, euroVal_form _ _⟩
  · exact ⟨100 * y.2.2.1 + y.2.2.2, euroVal_form _ _⟩
  · exact ⟨y.2.2, rfl⟩

/-- Every extracted discount percentage is a nonnegative integer. -/
theorem extract_discounts_nonneg (text : List Char) :
    ∀ p ∈ extract_discounts_from_text text, 0 ≤ p.2 := by
  intro p hp
  unfold extract_discounts_from_text at hp
  obtain ⟨x, hx, rfl⟩ := List.mem_map.1 hp
  unfold discountMatches at hx
  simp only [List.mem_append, List.mem_map] at hx
  rcases hx with ((⟨y, _, rfl⟩ | ⟨y, _, rfl⟩) | ⟨y, _, rfl⟩) | ⟨y, _, rfl⟩ <;>
    exact Int.natCast_nonneg _

/-- The associated discount is either 0 or one of the extracted discounts. -/
theorem associateDiscount_cases (ctx : List Char) :
    ∀ ds : List (List Char × ℤ), associateDiscount ctx ds = 0 ∨
      ∃ p ∈ ds, associateDiscount ctx ds = p.2
  | [] => Or.inl rfl
  | p :: rest => by
    unfold associateDiscount
    split
    · exact Or.inr ⟨p, List.mem_cons_self _ _, rfl⟩
    · rcases associateDiscount_cases ctx rest with h | ⟨q, hq, h⟩
      · exact Or.inl h
      · exact Or.inr ⟨q, List.mem_cons_of_mem _ hq, h⟩

/-! ### Library lemmas: the promo price inequality -/

/-- For a two-decimal price and a discount strictly between 0 and 100, the
reconstructed base price is at least the final price. -/
theorem price_le_round2_div (n : ℕ) (dp : ℤ) (h0 : 0 < dp) (h100 : dp < 100) :
    (n : ℚ) / 100 ≤ round2 ((n : ℚ) / 100 / (1 - (dp : ℚ) / 100)) := by
  set p : ℚ := (n : ℚ) / 100 with hp
  have hpn : 0 ≤ p := by positivity
  have hdp0 : (0 : ℚ) < (dp : ℚ) := by exact_mod_cast h0
  have hdp100 : (dp : ℚ) < 100 := by exact_mod_cast h100
  have ht : 0 < 1 - (dp : ℚ) / 100 := by linarith
  have ht1 : 1 - (dp : ℚ) / 100 ≤ 1 := by linarith
  have hle : p ≤ p / (1 - (dp : ℚ) / 100) := by
    rw [le_div_iff₀ ht]
    nlinarith
  calc p = round2 p := (round2_natDiv100 n).symm
    _ ≤ round2 (p / (1 - (dp : ℚ) / 100)) := round2_mono hle

/-! ### Library lemmas: `optionMapList` and deduplication -/

theorem optionMapList_mem {α β : Type} (f : α → Option β) :
    ∀ (l : List α) (res : List β), optionMapList f l = some res →
      ∀ b ∈ res, ∃ a ∈ l, f a = some b
  | [], res => by
    intro h b hb
    simp only [optionMapList, Option.some.injEq] at h
    subst h
    simp at hb
  | a :: as, res => by
    intro h b hb
    unfold optionMapList at h
    cases hfa : f a with
    | none => rw [hfa] at h; simp at h
    | some b0 =>
      rw [hfa] at h
      cases hrest : optionMapList f as with
      | none => rw [hrest] at h; simp at h
      | some bs =>
        rw [hrest] at h
        simp only [Option.map_some', Option.some.injEq] at h
        subst h
        rcases List.mem_cons.1 hb with rfl | hb2
        · exact ⟨a, List.mem_cons_self _ _, hfa⟩
        · obtain ⟨a2, ha2, hfa2⟩ := optionMapList_mem f as bs hrest b hb2
          exact ⟨a2, List.mem_cons_of_mem _ ha2, hfa2⟩

theorem dedupRecordsAux_subset :
    ∀ (seen : List (List Char × ℚ)) (l : List ProductRecord) (r : ProductRecord),
      r ∈ dedupRecordsAux seen l → r ∈ l
  | _, [], r => by intro h; simp [dedupRecordsAux] at h
  | seen, x :: xs, r => by
    intro h
    unfold dedupRecordsAux at h
    by_cases hx : (x.product_name, x.final_price) ∈ seen
    · rw [if_pos hx] at h
      exact List.mem_cons_of_mem _ (dedupRecordsAux_subset seen xs r h)
    · rw [if_neg hx] at h
      rcases List.mem_cons.1 h with rfl | h2
      · exact List.mem_cons_self _ _
      · exact List.mem_cons_of_mem _ (dedupRecordsAux_subset _ xs r h2)

theorem dedupRecords_subset (l : List ProductRecord) (r : ProductRecord) :
    r ∈ dedupRecords l → r ∈ l :=
  dedupRecordsAux_subset [] l r

/-! ### Library lemmas: stable sorted selection -/

theorem takeSortedBy_pairwise {α : Type} (le : α → α → Prop) [DecidableRel le]
    (htot : ∀ a b, le a b ∨ le b a) (htrans : ∀ {a b c}, le a b → le b c → le a c)
    (n : ℕ) (l : List α) : List.Pairwise le (takeSortedBy le n l) := by
  haveI : IsTotal α le := ⟨htot⟩
  haveI : IsTrans α le := ⟨fun _ _ _ => htrans⟩
  exact List.Pairwise.sublist (List.take_sublist n _) (List.sorted_insertionSort le l)

theorem takeSortedBy_mem {α : Type} (le : α → α → Prop) [DecidableRel le]
    (n : ℕ) (l : List α) : ∀ x ∈ takeSortedBy le n l, x ∈ l := by
  intro x hx
  have h1 : x ∈ l.insertionSort le := (List.take_sublist n _).mem hx
  exact (List.perm_insertionSort le l).mem_iff.1 h1

/-! ### Library lemmas: cart acceptance -/

/-- With a truthy (nonzero) budget, every item the per-category loop accepts
satisfies the budget bound at its acceptance point. -/
theorem cartAccept_bound {b : ℚ} (hb : b ≠ 0) :
    ∀ (sel : List ProductRecord) (total savings : ℚ),
      ∀ pr ∈ (cartAccept (some b) sel total savings).1,
        pr.2 + pr.1.final_price ≤ b
  | [], total, savings => by intro pr h; simp [cartAccept] at h
  | p :: rest, total, savings => by
    intro pr h
    unfold cartAccept at h
    by_cases hskip : cartSkips (some b) total p.final_price = true
    · rw [if_pos hskip] at h
      exact cartAccept_bound hb rest total savings pr h
    · rw [if_neg hskip] at h
      have hfit : total + p.final_price ≤ b := by
        unfold cartSkips at hskip
        simp only [Bool.and_eq_true, decide_eq_true_eq, not_and, not_lt] at hskip
        exact hskip hb
      rcases List.mem_cons.1 h with rfl | h2
      · exact hfit
      · exact cartAccept_bound hb rest _ _ pr h2

/-- Budget bound propagated through the category loop. -/
theorem cartRun_bound {b : ℚ} (hb : b ≠ 0) (records : List ProductRecord) :
    ∀ (desired : List (String × ℕ)) (total savings : ℚ),
      ∀ pr ∈ (cartRun records (some b) desired total savings).1,
        pr.2 + pr.1.final_price ≤ b
  | [], total, savings => by intro pr h; simp [cartRun] at h
  | (cat, qty) :: rest, total, savings => by
    intro pr h
    unfold cartRun at h
    by_cases hcat : (records.filter (fun r => r.category = cat)).isEmpty = true
    · rw [if_pos hcat] at h
      exact cartRun_bound hb records rest total savings pr h
    · rw [if_neg hcat] at h
      simp only [List.mem_append] at h
      rcases h with h1 | h2
      · exact cartAccept_bound hb _ total savings pr h1
      · exact cartRun_bound hb records rest _ _ pr h2

/-! ### Library lemmas: the shopping-list budget loop -/

/-- Every accepted shopping-list item satisfied the budget bound when it was
appended. -/
theorem shoppingLoop_bound (b : ℚ) :
    ∀ (xs : List ProductRecord) (total : ℚ),
      ∀ pr ∈ (shoppingLoop b xs total).1, pr.2 + pr.1.final_price ≤ b
  | [], total => by intro pr h; simp [shoppingLoop] at h
  | x :: xs, total => by
    intro pr h
    unfold shoppingLoop at h
    by_cases hfit : total + x.final_price ≤ b
    · rw [if_pos hfit] at h
      by_cases hstop : b * (95 / 100) ≤ total + x.final_price
      · rw [if_pos hstop] at h
        simp only [List.mem_singleton] at h
        subst h
        exact hfit
      · rw [if_neg hstop] at h
        rcases List.mem_cons.1 h with rfl | h2
        · exact hfit
        · exact shoppingLoop_bound b xs _ pr h2
    · rw [if_neg hfit] at h
      by_cases hstop : b * (95 / 100) ≤ total
      · rw [if_pos hstop] at h
        simp at h
      · rw [if_neg hstop] at h
        exact shoppingLoop_bound b xs total pr h
  termination_by xs => xs.length

/-- If the walk stopped with candidates left unvisited, the final running
total had reached the 95% threshold. -/
theorem shoppingLoop_stop (b : ℚ) :
    ∀ (xs : List ProductRecord) (total : ℚ),
      (shoppingLoop b xs total).2.2.2 ≠ [] →
        b * (95 / 100) ≤ (shoppingLoop b xs total).2.2.1
  | [], total => by intro h; simp [shoppingLoop] at h
  | x :: xs, total => by
    intro h
    unfold shoppingLoop at h ⊢
    by_cases hfit : total + x.final_price ≤ b
    · rw [if_pos hfit] at h ⊢
      by_cases hstop : b * (95 / 100) ≤ total + x.final_price
      · rw [if_pos hstop] at h ⊢
        exact hstop
      · rw [if_neg hstop] at h ⊢
        exact shoppingLoop_stop b xs _ h
    · rw [if_neg hfit] at h ⊢
      by_cases hstop : b * (95 / 100) ≤ total
      · rw [if_pos hstop] at h ⊢
        exact hstop
      · rw [if_neg hstop] at h ⊢
        exact shoppingLoop_stop b xs total h
  termination_by xs => xs.length

theorem getLast?_cons_of_ne_nil {α : Type} (a : α) {l : List α} (h : l ≠ []) :
    (a :: l).getLast? = l.getLast? := by
  cases l with
  | nil => exact absurd rfl h
  | cons x xs => rfl

/-- Every running total observed at a loop-bottom `break` test was below the
95% threshold, except possibly the last one (at which the walk stopped). -/
theorem shoppingLoop_prompt (b : ℚ) :
    ∀ (xs : List ProductRecord) (total : ℚ),
      ∀ t ∈ (shoppingLoop b xs total).2.1,
        t < b * (95 / 100) ∨ (shoppingLoop b xs total).2.1.getLast? = some t
  | [], total => by intro t h; simp [shoppingLoop] at h
  | x :: xs, total => by
    intro t h
    unfold shoppingLoop at h ⊢
    by_cases hfit : total + x.final_price ≤ b
    · rw [if_pos hfit] at h ⊢
      by_cases hstop : b * (95 / 100) ≤ total + x.final_price
      · rw [if_pos hstop] at h ⊢
        simp only [List.mem_singleton] at h
        subst h
        exact Or.inr rfl
      · rw [if_neg hstop] at h ⊢
        rcases List.mem_cons.1 h with rfl | h2
        · exact Or.inl (lt_of_not_le hstop)
        · rcases shoppingLoop_prompt b xs (total + x.final_price) t h2 with h3 | h3
          · exact Or.inl h3
          · exact Or.inr (by
              rw [getLast?_cons_of_ne_nil _ (List.ne_nil_of_mem h2)]
              exact h3)
    · rw [if_neg hfit] at h ⊢
      by_cases hstop : b * (95 / 100) ≤ total
      · rw [if_pos hstop] at h ⊢
        simp only [List.mem_singleton] at h
        subst h
        exact Or.inr rfl
      · rw [if_neg hstop] at h ⊢
        rcases List.mem_cons.1 h with rfl | h2
        · exact Or.inl (lt_of_not_le hstop)
        · rcases shoppingLoop_prompt b xs total t h2 with h3 | h3
          · exact Or.inl h3
          · exact Or.inr (by
              rw [getLast?_cons_of_ne_nil _ (List.ne_nil_of_mem h2)]
              exact h3)
  termination_by xs => xs.length

/-! ### Claim C1 — RecordBuilder price derivation -/

/-- C1: for every input (context, price, discount_pct), whenever a record is
produced (Python raises `ZeroDivisionError` at `discount_pct = 100`, producing
none), `discount_pct > 0` gives `final_price = price` and
`base_price = round(price / (1 - discount_pct/100), 2)`, and otherwise
`base_price = final_price = price`. -/
theorem c1_record_builder_prices :
    ∀ (ret sf : String) (ctx : List Char) (price : ℚ) (dp : ℤ) (r : ProductRecord),
      recordFor ret sf ctx price dp = some r →
        (0 < dp → r.final_price = price ∧
          r.base_price = round2 (price / (1 - (dp : ℚ) / 100))) ∧
        (¬0 < dp → r.base_price = price ∧ r.final_price = price) := by
  intro ret sf ctx price dp r h
  unfold recordFor at h
  by_cases h0 : 0 < dp
  · by_cases h100 : dp = 100
    · have hcp : calcPrices price dp = none := by
        unfold calcPrices
        rw [if_pos h0, if_pos h100]
      rw [hcp] at h
      exact absurd h (by simp)
    · have hcp : calcPrices price dp =
          some (round2 (price / (1 - (dp : ℚ) / 100)), price) := by
        unfold calcPrices
        rw [if_pos h0, if_neg h100]
      rw [hcp] at h
      simp only [Option.some.injEq] at h
      subst h
      exact ⟨fun _ => ⟨rfl, rfl⟩, fun hc => absurd h0 hc⟩
  · have hcp : calcPrices price dp = some (price, price) := by
      unfold calcPrices
      rw [if_neg h0]
    rw [hcp] at h
    simp only [Option.some.injEq] at h
    subst h
    exact ⟨fun hc => absurd hc h0, fun _ => ⟨rfl, rfl⟩⟩

/-- C1 witness: the spec's worked example, `1.99` at `-20%` reconstructs a
base price of `2.49`. -/
theorem c1_record_builder_prices_witness :
    recC1.final_price = (199 : ℚ) / 100 ∧
      recC1.base_price = round2 ((199 : ℚ) / 100 / (1 - ((20 : ℤ) : ℚ) / 100)) :=
  (c1_record_builder_prices "Maxima" "flyer.pdf" "Pienas".toList ((199 : ℚ) / 100) 20
    recC1 (by decide)).1 (by decide)

/-! ### Claim C6 — ContextAssociator -/

/-- C6: the associated discount of a price context is that of the first
discount pair, in sequence order, one of whose first five whitespace tokens
(lower-cased) occurs as a substring of the lower-cased price context; with no
qualifying pair the discount is 0.  The qualifying test is characterized
mathematically via `containsSub_iff`. -/
theorem c6_context_associator :
    ∀ (ctx : List Char) (ds : List (List Char × ℤ)),
      associateDiscount ctx ds =
        ((ds.find? (discQualifies ctx)).map (fun p => p.2)).getD 0 ∧
      ∀ p : List Char × ℤ, discQualifies ctx p = true ↔
        ∃ w ∈ (pySplit (p.1.map Char.toLower)).take 5,
          ∃ pre post, pre ++ w ++ post = ctx.map Char.toLower := by
  intro ctx ds
  constructor
  · induction ds with
    | nil => rfl
    | cons p rest ih =>
      by_cases hq : discQualifies ctx p = true
      · rw [List.find?_cons_of_pos _ hq]
        unfold associateDiscount
        rw [if_pos hq]
        rfl
      · rw [List.find?_cons_of_neg _ (by simpa using hq)]
        unfold associateDiscount
        rw [if_neg hq]
        exact ih
  · intro p
    unfold discQualifies
    rw [List.any_eq_true]
    constructor
    · rintro ⟨w, hw, hc⟩
      exact ⟨w, hw, (containsSub_iff _ _).1 hc⟩
    · rintro ⟨w, hw, hc⟩
      exact ⟨w, hw, (containsSub_iff _ _).2 hc⟩

/-! ### Claim C7 — Categorizer -/

theorem categorizeGo_eq_find? (tl : List Char) :
    ∀ l : List (String × List String),
      categorizeGo tl l =
        (l.find? (fun p => p.2.any (fun kw => containsSub tl kw.toList))).map
          (fun p => p.1)
  | [] => rfl
  | (cat, kws) :: rest => by
    unfold categorizeGo
    rw [List.find?_cons]
    cases hq : kws.any (fun kw => containsSub tl kw.toList) with
    | true => simp [hq]
    | false => simp [hq, categorizeGo_eq_find? tl rest]

/-- C7: the category is determined by the first entry of the insertion-ordered
keyword mapping with a keyword occurring in the lower-cased context; a record
whose context matches no keyword gets the fallback label `Kita`. -/
theorem c7_categorizer :
    ∀ text : List Char,
      categorize_product text =
        (category_keywords.find?
            (fun p => p.2.any
              (fun kw => containsSub (text.map Char.toLower) kw.toList))).map
          (fun p => p.1) ∧
      (categorize_product text = none ↔
        ∀ p ∈ category_keywords, ∀ kw ∈ p.2,
          ¬containsSub (text.map Char.toLower) kw.toList = true) ∧
      ∀ (ret sf : String) (price : ℚ) (dp : ℤ) (r : ProductRecord),
        recordFor ret sf text price dp = some r →
          r.category = (categorize_product text).getD "Kita" := by
  intro text
  refine ⟨categorizeGo_eq_find? _ category_keywords, ?_, ?_⟩
  · rw [categorize_product, categorizeGo_eq_find? _ category_keywords]
    rw [Option.map_eq_none', List.find?_eq_none]
    constructor
    · intro h p hp kw hkw hc
      have h2 := h p hp
      simp only [List.any_eq_true, not_exists] at h2
      exact h2 kw ⟨hkw, hc⟩
    · intro h p hp
      simp only [List.any_eq_true, not_exists]
      rintro kw ⟨hkw, hc⟩
      exact h p hp kw hkw hc
  · intro ret sf price dp r h
    unfold recordFor at h
    cases hcp : calcPrices price dp with
    | none => rw [hcp] at h; exact absurd h (by simp)
    | some bf =>
      rw [hcp] at h
      simp only [Option.some.injEq] at h
      subst h
      rfl

/-- C7 witness: the context `Pienas` is categorized into `Pieno produktai`
and a record built from it carries that category. -/
theorem c7_categorizer_witness :
    recC1.category = (categorize_product "Pienas".toList).getD "Kita" :=
  (c7_categorizer "Pienas".toList).2.2 "Maxima" "flyer.pdf" ((199 : ℚ) / 100) 20
    recC1 (by decide)

/-! ### Claim C3 — CartOptimizer budget compliance -/

/-- C3 counterexample: a budget of 0 **is** a set budget, but Python's
`if budget and ...` treats `0` as falsy, so the guard is skipped and an item
of price 1.50 is accepted into a cart with budget 0, violating
`running_total_before + final_price ≤ budget`. -/
theorem c3_counterexample :
    (optimize_shopping_cart [cartG1] [("Gėrimai", 1)] (some 0)).toOption.map
        (fun res => res.cart) = some [(cartG1, 0)] ∧
      ¬((0 : ℚ) + cartG1.final_price ≤ 0) := by
  constructor
  · rfl
  · decide

/-- C3 (amended): for every desired-products mapping and every set **nonzero**
budget, every item accepted into the cart satisfies
`running_total_before + final_price ≤ budget`; an unaffordable item is only
skipped, the loops continue. -/
theorem c3_cart_budget_amended :
    ∀ (records : List ProductRecord) (desired : List (String × ℕ)) (b : ℚ)
      (res : CartSummary),
      b ≠ 0 → optimize_shopping_cart records desired (some b) = Except.ok res →
        ∀ pr ∈ res.cart, pr.2 + pr.1.final_price ≤ b := by
  intro records desired b res hb h pr hpr
  unfold optimize_shopping_cart at h
  by_cases hemp : records.isEmpty = true
  · rw [if_pos hemp] at h
    exact absurd h (by simp)
  · rw [if_neg hemp] at h
    simp only [Except.ok.injEq] at h
    subst h
    exact cartRun_bound hb records desired 0 0 pr hpr

/-- C3 witness: spec scenario 4 — budget 3.00, two drinks requested from
{1.50, 2.00, 5.00}; the 1.50 item is accepted within budget, the 2.00 item
is skipped (3.50 > 3.00) without aborting, leaving a 1-item cart. -/
theorem c3_cart_budget_amended_witness :
    ((cartG1, (0 : ℚ)).2 + (cartG1, (0 : ℚ)).1.final_price ≤ 3) ∧
      (optimize_shopping_cart [cartG1, cartG2, cartG3] [("Gėrimai", 2)]
          (some 3)).toOption.map (fun res => res.items_count) = some 1 := by
  constructor
  · exact c3_cart_budget_amended [cartG1, cartG2, cartG3] [("Gėrimai", 2)] 3
      { cart := [(cartG1, 0)], total_cost := 3 / 2, total_savings := 0
        items_count := 1, retailers := ["Maxima"] }
      (by decide) (by rfl) (cartG1, (0 : ℚ)) (by decide)
  · rfl

/-! ### Claim C4 — ShoppingListBuilder budget loop -/

/-- C4: for every budget and every strategy outcome, walking the arranged
candidate sequence: an item is appended only when
`running_total + final_price ≤ budget`; when candidates are left unvisited
the final total had reached `0.95 × budget`; and every loop-bottom running
total was below `0.95 × budget` except the one at which the walk stopped. -/
theorem c4_shopping_list_budget_loop :
    ∀ (records : List ProductRecord) (b : ℚ) (s : String)
      (items : List ProductRecord),
      strategyArrange (records.filter (fun r => r.is_promo)) s = some items →
        (∀ pr ∈ (shoppingLoop b items 0).1, pr.2 + pr.1.final_price ≤ b) ∧
        ((shoppingLoop b items 0).2.2.2 ≠ [] →
          b * (95 / 100) ≤ (shoppingLoop b items 0).2.2.1) ∧
        (∀ t ∈ (shoppingLoop b items 0).2.1,
          t < b * (95 / 100) ∨ (shoppingLoop b items 0).2.1.getLast? = some t) := by
  intro records b s items _
  exact ⟨shoppingLoop_bound b items 0, shoppingLoop_stop b items 0,
    shoppingLoop_prompt b items 0⟩

/-- C4 witness: budget 10 with promo finals (5, 5, 1) under strategy
`savings`: the second item was appended with `5 + 5 ≤ 10`, and the walk
stopped at total 10 ≥ 9.5 leaving the affordable-looking tail unvisited. -/
theorem c4_shopping_list_budget_loop_witness :
    ((wRecB, (5 : ℚ)).2 + (wRecB, (5 : ℚ)).1.final_price ≤ 10) ∧
      (10 : ℚ) * (95 / 100) ≤ (shoppingLoop 10 [wRecA, wRecB, wRecC] 0).2.2.1 := by
  have h := c4_shopping_list_budget_loop [wRecA, wRecB, wRecC] 10 "savings"
    [wRecA, wRecB, wRecC] (by rfl)
  exact ⟨h.1 (wRecB, (5 : ℚ)) (by decide), h.2.1 (by decide)⟩

/-! ### Claim C9 — empty promo input -/

/-- C9 counterexample: with a nonempty collection containing no promo
records, strategy `single_retailer` raises (pandas `idxmax` on the empty
`value_counts()` series) instead of returning an empty list. -/
theorem c9_counterexample :
    [recNP].filter (fun r => r.is_promo) = [] ∧
      generate_shopping_list [recNP] 10 "single_retailer" =
        Except.error "attempt to get argmax of an empty sequence" := by
  constructor
  · decide
  · rfl

/-- C9 (amended): on a nonempty collection with no promo candidates,
strategies `savings` and `variety` return an empty list without error, while
`single_retailer` raises on the empty retailer series.  (An entirely empty
collection raises `No promo data loaded.` for every strategy.) -/
theorem c9_empty_input_amended :
    ∀ (records : List ProductRecord) (b : ℚ),
      records ≠ [] → records.filter (fun r => r.is_promo) = [] →
        generate_shopping_list records b "savings" = Except.ok [] ∧
        generate_shopping_list records b "variety" = Except.ok [] ∧
        generate_shopping_list records b "single_retailer" =
          Except.error "attempt to get argmax of an empty sequence" := by
  intro records b hne hfil
  have hemp : records.isEmpty = false := by
    cases records with
    | nil => exact absurd rfl hne
    | cons x xs => rfl
  unfold generate_shopping_list
  rw [hfil, hemp]
  exact ⟨rfl, rfl, rfl⟩

/-- C9 witness at the concrete one-record non-promo collection. -/
theorem c9_empty_input_amended_witness :
    generate_shopping_list [recNP] 10 "savings" = Except.ok [] ∧
      generate_shopping_list [recNP] 10 "variety" = Except.ok [] :=
  ⟨(c9_empty_input_amended [recNP] 10 (by decide) (by decide)).1,
   (c9_empty_input_amended [recNP] 10 (by decide) (by decide)).2.1⟩

/-! ### Claim C10 — unrecognized strategy -/

/-- C10: a strategy value other than the three recognized ones signals no
error: all reordering and filtering is skipped and the budget-bounded list is
assembled from all promo records in their existing collection order. -/
theorem c10_unknown_strategy :
    ∀ (records : List ProductRecord) (b : ℚ) (s : String),
      s ≠ "savings" → s ≠ "variety" → s ≠ "single_retailer" → records ≠ [] →
        generate_shopping_list records b s =
          Except.ok (shoppingListOf b (records.filter (fun r => r.is_promo))) := by
  intro records b s h1 h2 h3 hne
  have hemp : records.isEmpty = false := by
    cases records with
    | nil => exact absurd rfl hne
    | cons x xs => rfl
  unfold generate_shopping_list strategyArrange
  rw [hemp, if_neg h1, if_neg h2, if_neg h3]
  rfl

/-- C10 witness: the unrecognized strategy `cheapest` silently falls through. -/
theorem c10_unknown_strategy_witness :
    generate_shopping_list [wRecA, recNP] 10 "cheapest" =
      Except.ok (shoppingListOf 10 ([wRecA, recNP].filter (fun r => r.is_promo))) :=
  c10_unknown_strategy [wRecA, recNP] 10 "cheapest" (by decide) (by decide)
    (by decide) (by decide)

/-! ### Claim C5 — DealRanker ordering -/

/-- At equal discount percentages, the deal-score order is exactly the
savings-ratio order. -/
theorem dealScore_ratio {a b : ProductRecord}
    (hdp : a.discount_pct = b.discount_pct) (h : dealScore b ≤ dealScore a) :
    savingsOf b / b.base_price ≤ savingsOf a / a.base_price := by
  unfold dealScore at h
  rw [hdp] at h
  linarith

/-- C5: the ranked output is restricted to promo records (and the category
filter when given), is sorted descending by
`deal_score = discount_pct * 0.7 + (savings / base_price * 100) * 0.3`, and
among returned records of equal `discount_pct` the one with the higher
`savings / base_price` ratio ranks higher. -/
theorem c5_deal_ranker :
    ∀ (records : List ProductRecord) (category : Option String) (n : ℕ)
      (out : List ProductRecord),
      find_best_deals records category n = Except.ok out →
        List.Pairwise (fun a b => dealScore b ≤ dealScore a) out ∧
        List.Pairwise (fun a b => a.discount_pct = b.discount_pct →
          savingsOf b / b.base_price ≤ savingsOf a / a.base_price) out ∧
        ∀ r ∈ out, r.is_promo = true ∧ ∀ c, category = some c → r.category = c := by
  intro records category n out h
  unfold find_best_deals at h
  by_cases hemp : records.isEmpty = true
  · rw [if_pos hemp] at h
    exact absurd h (by simp)
  · rw [if_neg hemp] at h
    simp only [Except.ok.injEq] at h
    subst h
    cases category with
    | none =>
      have hsorted := takeSortedBy_pairwise
        (fun a b : ProductRecord => dealScore b ≤ dealScore a)
        (fun a b => le_total (dealScore b) (dealScore a))
        (fun hab hbc => le_trans hbc hab) n
        (records.filter (fun r => r.is_promo))
      refine ⟨hsorted, hsorted.imp (fun hle hdp => dealScore_ratio hdp hle), ?_⟩
      intro r hr
      have hmem := takeSortedBy_mem _ n _ r hr
      exact ⟨(List.mem_filter.1 hmem).2, fun c hc => by cases hc⟩
    | some c0 =>
      have hsorted := takeSortedBy_pairwise
        (fun a b : ProductRecord => dealScore b ≤ dealScore a)
        (fun a b => le_total (dealScore b) (dealScore a))
        (fun hab hbc => le_trans hbc hab) n
        ((records.filter (fun r => r.is_promo)).filter (fun r => r.category = c0))
      refine ⟨hsorted, hsorted.imp (fun hle hdp => dealScore_ratio hdp hle), ?_⟩
      intro r hr
      have hmem := takeSortedBy_mem _ n _ r hr
      have h1 := List.mem_filter.1 hmem
      refine ⟨(List.mem_filter.1 h1.1).2, ?_⟩
      intro c hc
      injection hc with hc
      subst hc
      simpa using h1.2

/-- C5 witness: two promo records of equal deal score come out in stable
descending order, and the returned records are promotions. -/
theorem c5_deal_ranker_witness :
    List.Pairwise (fun a b => dealScore b ≤ dealScore a) [wRecA, wRecC] ∧
      wRecA.is_promo = true := by
  have h := c5_deal_ranker [wRecA, wRecC, recNP] none 5 [wRecA, wRecC] (by rfl)
  exact ⟨h.1, (h.2.2 wRecA (by decide)).1⟩

/-! ### Claim C2 — ProductRecord invariants -/

/-- C2 counterexample: the discount pattern `-(\d+)%` happily matches
`-150%`, so the pipeline produces a record with `discount_pct = 150 > 100`
whose reconstructed base price `round(1.99 / (1 - 1.5), 2) = -3.98` is
**below** the final price, refuting both `discount_pct ≤ 100` and
`final_price ≤ base_price`. -/
theorem c2_counterexample :
    parse_flyer c2text "Maxima" "flyer.pdf" = some [recC2] ∧
      ¬recC2.discount_pct ≤ 100 ∧ ¬recC2.final_price ≤ recC2.base_price := by
  refine ⟨by rfl, by decide, by decide⟩

/-- C2 (amended): extracted discounts satisfy `0 ≤ discount_pct` (there is no
upper bound in the code); every pipeline record satisfies
`is_promo ↔ discount_pct > 0`; and `final_price ≤ base_price` holds for promo
records whenever `discount_pct < 100`. -/
theorem c2_record_invariants_amended :
    ∀ (text : List Char) (ret sf : String) (recs : List ProductRecord),
      parse_flyer text ret sf = some recs →
        (∀ p ∈ extract_discounts_from_text text, 0 ≤ p.2) ∧
        ∀ r ∈ recs, (r.is_promo = true ↔ 0 < r.discount_pct) ∧
          (r.is_promo = true → r.discount_pct < 100 →
            r.final_price ≤ r.base_price) := by
  intro text ret sf recs h
  refine ⟨extract_discounts_nonneg text, ?_⟩
  intro r hr
  unfold parse_flyer at h
  by_cases hemp : pyStrip text = []
  · rw [if_pos hemp] at h
    simp only [Option.some.injEq] at h
    subst h
    simp at hr
  · rw [if_neg hemp] at h
    obtain ⟨l, hl, hrecs⟩ := Option.map_eq_some'.1 h
    subst hrecs
    have hrl : r ∈ l := dedupRecords_subset l r hr
    obtain ⟨p, hp, hrec⟩ := optionMapList_mem _ _ l hl r hrl
    unfold recordFor at hrec
    cases hcp : calcPrices p.2 (associateDiscount p.1 (extract_discounts_from_text text)) with
    | none => rw [hcp] at hrec; exact absurd hrec (by simp)
    | some bf =>
      rw [hcp] at hrec
      simp only [Option.some.injEq] at hrec
      subst hrec
      refine ⟨decide_eq_true_iff, ?_⟩
      intro hpromo h100
      have h0 : 0 < associateDiscount p.1 (extract_discounts_from_text text) :=
        of_decide_eq_true hpromo
      have h100' : associateDiscount p.1 (extract_discounts_from_text text) < 100 := h100
      unfold calcPrices at hcp
      rw [if_pos h0, if_neg (by omega :
        ¬associateDiscount p.1 (extract_discounts_from_text text) = 100)] at hcp
      simp only [Option.some.injEq] at hcp
      subst hcp
      show p.2 ≤ round2 (p.2 / (1 - _ / 100))
      obtain ⟨n, hn⟩ := extract_prices_form text p hp
      rw [hn]
      exact price_le_round2_div n _ h0 h100'

/-- C2 witness: the record parsed from `Pienas 1,99 € -20%` is a promotion
with `final_price 1.99 ≤ base_price 2.49`. -/
theorem c2_record_invariants_amended_witness :
    (recC2w.is_promo = true ↔ 0 < recC2w.discount_pct) ∧
      recC2w.final_price ≤ recC2w.base_price := by
  have h := (c2_record_invariants_amended c2wtext "Maxima" "flyer.pdf" [recC2w]
    (by rfl)).2 recC2w (by decide)
  exact ⟨h.1, h.2 (by decide) (by decide)⟩

/-! ### Claim C8 — extraction context window -/

/-- C8 counterexample: the single discount match spans [1, 5), its clipped
±50 window is the whole text ` -20%`, but the extractor pairs the value with
the **stripped** window `-20%`, so the context does not equal the clipped
substring. -/
theorem c8_counterexample :
    discountMatches c8text = [(1, 5, 20)] ∧
      windowSlice c8text 1 5 = " -20%".toList ∧
      extract_discounts_from_text c8text = [("-20%".toList, 20)] ∧
      ¬("-20%".toList = " -20%".toList) :=
  ⟨by decide, by decide, by decide, by decide⟩

/-- C8 (amended): every extracted pair carries, as context, the
whitespace-**stripped** clipped window around its match; the clipped window
itself is exactly the substring of the text from `start − 50` to `end + 50`,
clipped to the text bounds (characterized by length and pointwise content). -/
theorem c8_context_window_amended :
    ∀ text : List Char,
      extract_prices_from_text text =
        (priceMatches text).map
          (fun x => (pyStrip (windowSlice text x.1 x.2.1), x.2.2)) ∧
      extract_discounts_from_text text =
        (discountMatches text).map
          (fun x => (pyStrip (windowSlice text x.1 x.2.1), x.2.2)) ∧
      ∀ s e : ℕ,
        (windowSlice text s e).length = min text.length (e + 50) - (s - 50) ∧
        ∀ (i : ℕ) (c : Char), i < (windowSlice text s e).length →
          (windowSlice text s e).getD i c = text.getD (s - 50 + i) c := by
  intro text
  refine ⟨rfl, rfl, ?_⟩
  intro s e
  have hlen : (windowSlice text s e).length =
      min text.length (e + 50) - (s - 50) := by
    unfold windowSlice
    rw [List.length_take, List.length_drop]
    omega
  refine ⟨hlen, ?_⟩
  intro i c hi
  rw [hlen] at hi
  unfold windowSlice
  rw [List.getD_eq_getElem?_getD, List.getD_eq_getElem?_getD,
    List.getElem?_take, List.getElem?_drop]
  rw [if_pos (by omega)]

/-- C8 witness at the counterexample text: the clipped window around the
match [1, 5) has length 5 and starts at character 0 of the text. -/
theorem c8_context_window_amended_witness :
    (windowSlice c8text 1 5).length = min c8text.length (5 + 50) - (1 - 50) ∧
      (windowSlice c8text 1 5).getD 0 '?' = c8text.getD (1 - 50 + 0) '?' := by
  have h := (c8_context_window_amended c8text).2.2 1 5
  exact ⟨h.1, h.2 0 '?' (by decide)⟩
